import Mathlib

/-!
Shallow embedding of `src/skills/youtube-transcript-obsidian/scripts/youtube_to_obsidian.py`
(the final, most complete version of the script), together with theorems about its
chapter bucketing, rendering, cleaning, acquisition tiering and LLM-fallback logic.

Modelling conventions:
* Python floats carrying time offsets (seconds) are modelled as rationals (`ℚ`);
  none of the verified properties depends on binary floating-point rounding.
* Python strings are modelled as Lean `String`/`List Char`.  `str.strip()` /
  `str.rstrip()` are modelled over a whitespace predicate covering the ASCII
  whitespace characters Python's `\s` matches (`' '`, `'\t'`, `'\n'`, `'\r'`,
  `'\x0b'`, `'\x0c'`); non-ASCII Unicode whitespace does not occur in any input
  the claims are about.
* External collaborators (the captions API, the ASR pipeline, the `gemini`
  subprocess) are modelled by explicit result values handed to the embedded
  control flow, exactly at the interface boundary the script observes
  (exceptions raised / exit status / captured stdout and stderr).
-/

namespace YT

/-- Python ASCII whitespace as matched by `str.strip()` / regex `\s`. -/
def pyIsSpace (c : Char) : Bool :=
  c.isWhitespace || c = '\x0b' || c = '\x0c'

/-- `str.strip()` on a character list. -/
def pytrim_list (l : List Char) : List Char :=
  ((l.dropWhile pyIsSpace).reverse.dropWhile pyIsSpace).reverse

/-- Python `str.strip()`. -/
def pytrim (s : String) : String := ⟨pytrim_list s.data⟩

/-- Python `str.rstrip()`. -/
def pyrstrip (s : String) : String := ⟨(s.data.reverse.dropWhile pyIsSpace).reverse⟩

/-- Python `f"{n:02d}"`: zero-pad to at least two digits (wider numbers are
printed in full, e.g. a 3-digit hour count). -/
def pad2 (n : Nat) : String := if n < 10 then "0" ++ toString n else toString n

/-- `hms` (script lines 16-21): `[HH:MM:SS]` label of a float offset.
`int(max(0, seconds))` truncates the clamped (hence non-negative) value,
i.e. takes its floor. -/
def hms (seconds : ℚ) : String :=
  let s : Nat := (⌊max 0 seconds⌋).toNat
  let h := s / 3600
  let m := s % 3600 / 60
  let sec := s % 60
  "[" ++ pad2 h ++ ":" ++ pad2 m ++ ":" ++ pad2 sec ++ "]"

/-- One utterance row `{"start": float, "text": str}`. -/
structure Utt where
  start : ℚ
  text : String
deriving DecidableEq

/-- One chapter `{"start": float, "title": str}`. -/
structure Chapter where
  start : ℚ
  title : String
deriving DecidableEq

/-- Loop body of `chapter_for` (script lines 223-230): forward scan keeping the
index of the last chapter whose start is `<= ts`, stopping at the first chapter
whose start exceeds `ts`. `i` is the position of the list head in the original
chapter list, `idx` the best index found so far (initially 0). -/
def chapter_for_aux (ts : ℚ) : List Chapter → Nat → Nat → Nat
  | [], _, idx => idx
  | c :: rest, i, idx => if ts ≥ c.start then chapter_for_aux ts rest (i + 1) i else idx

/-- `chapter_for(ts, chapters)` (script lines 223-230). -/
def chapter_for (ts : ℚ) (chapters : List Chapter) : Nat :=
  chapter_for_aux ts chapters 0 0

/-- The chapter bucket used by `render` (script lines 280-282): `grouped[i]`
holds the transcript rows whose `chapter_for` index is `i`, in transcript
order. -/
def bucket (chapters : List Chapter) (transcript : List Utt) (i : Nat) : List Utt :=
  transcript.filter (fun r => decide (chapter_for r.start chapters = i))

/-- Decidable check for the shape `^\[\d{2}:\d{2}:\d{2}\]$` claimed of `hms`
output. -/
def matches_hms_shape (s : String) : Bool :=
  match s.data with
  | ['[', a, b, ':', c, d, ':', e, f, ']'] =>
      a.isDigit && b.isDigit && c.isDigit && d.isDigit && e.isDigit && f.isDigit
  | _ => false

/-- Decode a `[HH:MM:SS]` label back to a number of seconds (0 if the string
is not of that shape). -/
def decode_hms (s : String) : Nat :=
  match s.data with
  | ['[', a, b, ':', c, d, ':', e, f, ']'] =>
      ((a.toNat - 48) * 10 + (b.toNat - 48)) * 3600 +
      ((c.toNat - 48) * 10 + (d.toNat - 48)) * 60 +
      ((e.toNat - 48) * 10 + (f.toNat - 48))
  | _ => 0

/-- Sentence-terminating punctuation of `sentence_count`'s regex
`(?<=[.!?。！？])\s+` (script lines 239-242). -/
def sentence_terminators : List Char := ['.', '!', '?', '。', '！', '？']

/-- Splitter for `re.split(r"(?<=[.!?。！？])\s+", text)`: a maximal whitespace
run immediately preceded by a terminator separates two parts; any other
whitespace stays inside its part.  `cur` is the current part accumulated in
reverse; `insep` records being inside a separating whitespace run. -/
def sent_aux : List Char → List Char → Bool → List (List Char)
  | [], cur, _ => [cur.reverse]
  | c :: rest, cur, insep =>
    if insep then
      if pyIsSpace c then sent_aux rest cur true
      else sent_aux rest [c] false
    else
      if pyIsSpace c && (match cur with
                         | p :: _ => sentence_terminators.contains p
                         | [] => false) then
        cur.reverse :: sent_aux rest [] true
      else sent_aux rest (c :: cur) false

/-- `sentence_count` (script lines 239-242): split the stripped text after
sentence-ending punctuation, count the parts containing a non-whitespace
character, and never return less than 1. -/
def sentence_count (text : String) : Nat :=
  let parts := sent_aux (pytrim_list text.data) [] false
  let parts := parts.filter (fun p => p.any (fun c => !pyIsSpace c))
  max 1 parts.length

/-- Does `needle` occur at the head of `hay`? -/
def list_startswith : List Char → List Char → Bool
  | _, [] => true
  | [], _ :: _ => false
  | a :: as, b :: bs => a = b && list_startswith as bs

/-- Python `needle in hay` substring containment. -/
def contains_sub : List Char → List Char → Bool
  | [], needle => needle.isEmpty
  | a :: as, needle => list_startswith (a :: as) needle || contains_sub as needle

/-- Python `str.lower()`.  Only ASCII letters matter for the fixed marker set
scanned by `is_non_speech`. -/
def py_lower (s : String) : String := ⟨s.data.map Char.toLower⟩

/-- Opening characters of the bracket class `[\[(（【]` in `is_non_speech`. -/
def bracket_opens : List Char := ['[', '(', '（', '【']

/-- Closing characters of the bracket class `[\])）】]` in `is_non_speech`. -/
def bracket_closes : List Char := [']', ')', '）', '】']

/-- `re.fullmatch(r"[\[(（【].*[\])）】]", t)`: first char in the opening class,
last char in the closing class, and no newline in between (`.` does not match
`'\n'`). -/
def bracket_fullmatch (l : List Char) : Bool :=
  match l with
  | [] => false
  | c :: rest =>
    match rest.reverse with
    | [] => false
    | d :: midrev =>
        bracket_opens.contains c && bracket_closes.contains d &&
        midrev.all (fun x => x ≠ '\n')

/-- The fixed non-speech marker set of `is_non_speech` (script line 252). -/
def markers : List String :=
  ["laughter", "music", "applause", "laughs", "[音乐", "[笑", "（笑", "【音乐", "【笑"]

/-- `is_non_speech` (script lines 245-253): empty (after strip) is speech; a
fully bracket-enclosed text is an event; otherwise scan the lower-cased text
for any fixed marker substring. -/
def is_non_speech (text : String) : Bool :=
  let t := pytrim text
  if t = "" then false
  else if bracket_fullmatch t.data then true
  else markers.any (fun m => contains_sub (py_lower t).data m.data)

/-- Drop of the leading quote marker `^>+\s*` (script line 258): one or more
`'>'` characters followed by any whitespace run are removed from the front. -/
def strip_leading_quote (l : List Char) : List Char :=
  let gs := l.takeWhile (fun c => c = '>')
  if gs.isEmpty then l else (l.drop gs.length).dropWhile pyIsSpace

/-- `re.sub(r"\s+", " ", t)`: every maximal whitespace run becomes a single
space.  `prevSpace` records whether the previous character belonged to a run
already replaced. -/
def collapse_ws : List Char → Bool → List Char
  | [], _ => []
  | c :: rest, prevSpace =>
    if pyIsSpace c then
      if prevSpace then collapse_ws rest true else ' ' :: collapse_ws rest true
    else c :: collapse_ws rest false

/-- `clean_caption_text` (script lines 256-261): strip, drop a leading quote
marker, collapse whitespace runs, delete every literal `'['` and `']'`, strip
again. -/
def clean_caption_text (text : String) : String :=
  let t1 := pytrim_list text.data
  let t2 := strip_leading_quote t1
  let t3 := collapse_ws t2 false
  let t4 := t3.filter (fun c => !(c = '[') && !(c = ']'))
  ⟨pytrim_list t4⟩

/-- `r["text"].replace("\n", " ")` applied by `render` before cleaning
(script line 320). -/
def replace_nl (s : String) : String :=
  ⟨s.data.map (fun c => if c = '\n' then ' ' else c)⟩

/-- One emitted transcript entry of `render`'s chapter loop: either a
non-speech event line or a flushed dialogue paragraph (the accumulated cleaned
utterance texts plus the timestamp the line is tagged with). -/
inductive Item where
  | event (text : String) (ts : ℚ)
  | paragraph (texts : List String) (ts : ℚ)
deriving DecidableEq

/-- `flush_paragraph` (script lines 264-275) at the level of entries: an empty
buffer emits nothing, a non-empty buffer emits one paragraph tagged with the
timestamp of its last contributing utterance. -/
def flush_items (buf : List String) (last_ts : ℚ) : List Item :=
  if buf = [] then [] else [Item.paragraph buf last_ts]

/-- Bracket wrapping of an event line (script lines 326-328). -/
def wrap_event (text : String) : String :=
  if list_startswith text.data ['['] && text.data.getLast? = some ']' then text
  else "[" ++ text ++ "]"

/-- The chapter loop of `render` (script lines 319-342) producing the entry
sequence of one chapter: clean each row (newlines already replaced), skip rows
that clean to nothing, flush-and-emit an event for non-speech rows (the
sentence counter is NOT reset there, mirroring the script), accumulate speech
rows and flush once the accumulated sentence count reaches 3, and flush the
remainder at the end.  `buf` is the paragraph buffer, `bs` the accumulated
sentence count, `last_ts` the timestamp of the last buffered utterance
(initially the chapter start). -/
def process_rows : List Utt → List String → Nat → ℚ → List Item
  | [], buf, _, last_ts => flush_items buf last_ts
  | r :: rest, buf, bs, last_ts =>
    let text := clean_caption_text (replace_nl r.text)
    if text = "" then process_rows rest buf bs last_ts
    else if is_non_speech text then
      flush_items buf last_ts ++ Item.event (wrap_event text) r.start ::
        process_rows rest [] bs last_ts
    else
      let buf2 := buf ++ [text]
      let bs2 := bs + sentence_count text
      if bs2 ≥ 3 then flush_items buf2 r.start ++ process_rows rest [] 0 r.start
      else process_rows rest buf2 bs2 r.start

/-- Output lines for an entry sequence (script lines 264-275 and 324-331): each
entry is one line followed by a blank line; the first paragraph of the chapter
is prefixed by the speaker label (`tagged` plays the role of the script's
`labeled` flag, set by `flush_paragraph`). -/
def item_lines (speaker : String) : List Item → Bool → List String
  | [], _ => []
  | Item.event t ts :: rest, tagged =>
      (t ++ " " ++ hms ts) :: "" :: item_lines speaker rest tagged
  | Item.paragraph buf ts :: rest, tagged =>
      let text := pytrim (String.intercalate " " buf)
      let line := text ++ " " ++ hms ts
      (if tagged then line else speaker ++ ": " ++ line) :: "" ::
        item_lines speaker rest true

/-- One chapter section of `render` (script lines 304-343): heading line, blank
line, then either the empty-bucket marker (note the trailing `"\n"` inside the
marker string, as in script line 309) or the chapter's entry lines followed by
the extra blank line of script line 343. -/
def render_chapter (speaker : String) (c : Chapter) (rows : List Utt) : List String :=
  [hms c.start ++ " " ++ c.title, ""] ++
  (if rows = [] then ["[No transcript in this chapter] " ++ hms c.start ++ "\n", ""]
   else item_lines speaker (process_rows rows [] 0 c.start) false ++ [""])

/-- One metadata chapter marker (an element of `meta["chapters"]`): the script
reads `c.get("start_time", 0)` (modelled by the field always being present)
and `c.get("title") or "Chapter"` (a missing or `None` title is modelled by
`""`, which Python treats the same as a missing one). -/
structure ChapterMarker where
  start_time : ℚ
  title : String
deriving DecidableEq

/-- Is `c` the dash `[–-]?` of the chapter-line regex (en dash or hyphen)? -/
def is_dash (c : Char) : Bool := c = '–' || c = '-'

/-- `str.rstrip`-like trailing-whitespace drop on a character list. -/
def rstrip_chars (l : List Char) : List Char := (l.reverse.dropWhile pyIsSpace).reverse

/-- Group 4 of `^\s*(\d{1,2}):(\d{2})(?::(\d{2}))?\s*[–-]?\s*(.+?)\s*$` (script
line 205), already stripped (the script applies `.strip()` to it at line 214).
`none` when the remainder `r` after the timestamp cannot complete the match,
which happens exactly when `r` is empty (`(.+?)` needs at least one character;
backtracking lets it eat whitespace or the dash otherwise).  The branches
mirror the regex engine's preferences:
* after greedily consuming `\s*`, an optional dash and `\s*`, a non-empty
  remainder `r3` yields the remainder minus trailing whitespace;
* a remainder that dies out after the dash (`r3` empty, `r2` non-empty, i.e.
  only whitespace followed the dash) backtracks one whitespace character into
  `(.+?)`, so group 4 strips to the empty title;
* nothing at all after a consumed dash backtracks the dash itself into
  `(.+?)`, so the dash becomes the (stripped) title;
* a remainder of pure whitespace likewise puts one whitespace character into
  group 4, stripping to the empty title. -/
def tail_title (r : List Char) : Option (List Char) :=
  if r.isEmpty then none
  else
    let r1 := r.dropWhile pyIsSpace
    match r1 with
    | c :: r2 =>
        if is_dash c then
          let r3 := r2.dropWhile pyIsSpace
          if r3.isEmpty then (if r2.isEmpty then some [c] else some [])
          else some (rstrip_chars r3)
        else some (rstrip_chars r1)
    | [] => some []

/-- Numeric value of a digit run. -/
def digits_val (ds : List Char) : Nat := ds.foldl (fun a c => a * 10 + (c.toNat - 48)) 0

/-- One description line against `^\s*(\d{1,2}):(\d{2})(?::(\d{2}))?\s*[–-]?\s*(.+?)\s*$`
(script lines 205-214): leading whitespace, one or two digits, `':'`, exactly
two digits, an optional `':'` plus two further digits, then the title tail.
Yields the start offset in seconds and the stripped title.  The optional
`(?::(\d{2}))?` group is taken greedily but given back when nothing would
remain for `(.+?)` (so `"1:23:45"` parses as minutes/seconds `1:23` with title
`":45"`, exactly as the Python regex does). -/
def parse_ts_line (line : String) : Option (ℚ × String) :=
  let cs := line.data.dropWhile pyIsSpace
  let ds := cs.takeWhile Char.isDigit
  if ds.length = 0 ∨ ds.length > 2 then none
  else
    match cs.drop ds.length with
    | ':' :: a :: b :: rest3 =>
        if a.isDigit && b.isDigit then
          let g1 := digits_val ds
          let g2 := digits_val [a, b]
          match rest3 with
          | ':' :: c :: d :: rest4 =>
              if c.isDigit && d.isDigit && !rest4.isEmpty then
                (tail_title rest4).map (fun ti =>
                  (((g1 * 3600 + g2 * 60 + digits_val [c, d] : Nat) : ℚ), ⟨ti⟩))
              else
                (tail_title rest3).map (fun ti => (((g1 * 60 + g2 : Nat) : ℚ), ⟨ti⟩))
          | _ => (tail_title rest3).map (fun ti => (((g1 * 60 + g2 : Nat) : ℚ), ⟨ti⟩))
        else none
    | _ => none

/-- A parsed line becomes a chapter only when its stripped title is non-empty
(`if title:` at script line 215). -/
def line_to_chapter (line : String) : Option Chapter :=
  match parse_ts_line line with
  | some (s, t) => if t = "" then none else some ⟨s, t⟩
  | none => none

/-- Split at `'\n'`, keeping pieces in order (the head of the result collects
characters up to the first newline). -/
def split_nl : List Char → List (List Char)
  | [] => [[]]
  | c :: rest =>
    if c = '\n' then [] :: split_nl rest
    else
      match split_nl rest with
      | p :: ps => (c :: p) :: ps
      | [] => [[c]]

/-- Python `str.splitlines()` for `'\n'` / `"\r\n"` line endings: the empty
string has no lines, a trailing newline does not open a final empty line, and
a `'\r'` left at the end of a line by a `"\r\n"` ending is dropped.  (Python
also splits on bare `'\r'` and some exotic separators; none occur here.) -/
def splitlines (s : String) : List String :=
  if s.data.isEmpty then []
  else
    let ps := split_nl s.data
    let ps := if s.data.getLast? = some '\n' then ps.dropLast else ps
    ps.map (fun l => ⟨if l.getLast? = some '\r' then l.dropLast else l⟩)

/-- The metadata record consumed by the embedded functions.  Missing dict keys
(`meta.get(...) or default`) are modelled by `""` / `[]` defaults.  Fields the
script computes but never uses in its output (`channel_url`, `webpage_url`,
`upload_date`, `thumbnail`, `duration`, script lines 285-293) are omitted. -/
structure MetaRec where
  title : String
  uploader : String
  channel : String
  description : String
  chapters : List ChapterMarker
deriving DecidableEq

/-- `build_chapters` (script lines 197-220): metadata chapter markers if any,
else the chapters parsed line by line out of the description, else the single
synthetic `Transcript` chapter. -/
def build_chapters (meta : MetaRec) : List Chapter :=
  if meta.chapters ≠ [] then
    meta.chapters.map (fun c => ⟨c.start_time, if c.title = "" then "Chapter" else c.title⟩)
  else
    let parsed := (splitlines meta.description).filterMap line_to_chapter
    if parsed ≠ [] then parsed else [⟨0, "Transcript"⟩]

/-- `render`'s line list `out` (script lines 278-343): title, table of
contents, then one section per chapter over that chapter's bucket. -/
def render_lines (meta : MetaRec) (chapters : List Chapter) (transcript : List Utt) :
    List String :=
  let title := pytrim (if meta.title = "" then "YouTube Transcript" else meta.title)
  let uploader := if meta.uploader = "" then meta.channel else meta.uploader
  let speaker := if uploader = "" then "Speaker 1" else uploader
  ([title, "", "Table of Contents", ""] ++
   chapters.map (fun c => "* " ++ hms c.start ++ " " ++ c.title) ++ [""]) ++
  (chapters.enum.flatMap (fun ic => render_chapter speaker ic.2 (bucket chapters transcript ic.1)))

/-- `render` (script lines 278-345): join the lines with newlines, strip
trailing whitespace, terminate with one newline.  The `source_url`, `vid` and
`prompt_path` parameters are accepted and unused, as in the script. -/
def render (meta : MetaRec) (chapters : List Chapter) (transcript : List Utt)
    (_source_url _vid _prompt_path : String) : String :=
  pyrstrip (String.intercalate "\n" (render_lines meta chapters transcript)) ++ "\n"

/-- Texts of the flushed paragraphs of an entry sequence (the emitted paragraph
lines with speaker prefix and trailing timestamp ignored). -/
def paragraph_texts : List Item → List (List String)
  | [] => []
  | Item.paragraph buf _ :: rest => buf :: paragraph_texts rest
  | Item.event _ _ :: rest => paragraph_texts rest

/-- The cleaned, non-empty, non-event texts of a row list, in order: exactly
the dialogue texts `render`'s chapter loop feeds into the paragraph buffer. -/
def cleaned_speech_texts (rows : List Utt) : List String :=
  rows.filterMap (fun r =>
    let t := clean_caption_text (replace_nl r.text)
    if t = "" then none else if is_non_speech t then none else some t)

/-- Does `s` end in exactly one newline: final char `'\n'`, preceded by a
non-whitespace char (or nothing)? -/
def one_trailing_newline (s : String) : Bool :=
  match s.data.reverse with
  | [] => false
  | c :: rest =>
      c = '\n' && (match rest with | [] => true | d :: _ => !d.isWhitespace)

/-- Outcome of `api.fetch(video_id, languages=preferred)` (script line 187) as
observed by `get_transcript`: a fetched item list, one of the two distinguished
exceptions `NoTranscriptFound` / `TranscriptsDisabled`, or any other
exception. -/
inductive CaptionsResult where
  | fetched (items : List Utt)
  | noTranscriptFound
  | transcriptsDisabled
  | otherFailure (msg : String)
deriving DecidableEq

/-- `get_transcript` (script lines 181-194).  The ASR fallback collaborator
`asr_fallback(video_url)` (script lines 74-178, pure subprocess orchestration)
is passed in as its observable outcome: the entry list it returns, or the
exception it raises.  Fetched items are mapped to `{start, stripped text}` and
empty-text entries are dropped (for the ASR path the script filters a second
time at line 194 even though `asr_fallback` already dropped empties). -/
def get_transcript (captions : CaptionsResult) (asr : Except String (List Utt)) :
    Except String (List Utt × String) :=
  match captions with
  | CaptionsResult.fetched items =>
      Except.ok
        (((items.map (fun it => Utt.mk it.start (pytrim it.text))).filter
            (fun e => decide (e.text ≠ ""))), "youtube-subtitles")
  | CaptionsResult.noTranscriptFound =>
      match asr with
      | Except.ok entries =>
          Except.ok (entries.filter (fun e => decide (e.text ≠ "")), "asr-fallback")
      | Except.error m => Except.error m
  | CaptionsResult.transcriptsDisabled =>
      match asr with
      | Except.ok entries =>
          Except.ok (entries.filter (fun e => decide (e.text ≠ "")), "asr-fallback")
      | Except.error m => Except.error m
  | CaptionsResult.otherFailure m => Except.error m

/-- The provenance step of `main` (script lines 433-434): an `asr-fallback`
transcript source appends the trailing provenance line to the note. -/
def apply_provenance (note : String) (transcript_source : String) : String :=
  if transcript_source = "asr-fallback" then
    pyrstrip note ++ "\n\nsource: asr-fallback\n"
  else note

/-- The `gemini` tool invocation as observed by `render_with_gemini`: whether
`which("gemini")` finds the executable, and the exit code / captured stdout /
captured stderr of the subprocess (script lines 359 and 394). -/
structure GeminiEnv where
  available : Bool
  exitCode : Int
  stdout : String
  stderr : String
deriving DecidableEq

/-- `render_with_gemini` (script lines 358-400), reduced to its observable
control flow: raise when the tool is absent, when it exits non-zero (with the
stripped stderr, or a fixed message if that is empty), or when its stdout is
empty after stripping; otherwise return the stripped stdout plus a newline.
The instruction payload the script builds (lines 362-392) is input to the
external tool and does not influence this control flow. -/
def render_with_gemini (env : GeminiEnv) : Except String String :=
  if env.available = false then Except.error "gemini CLI not found"
  else if env.exitCode ≠ 0 then
    Except.error (if pytrim env.stderr = "" then "gemini command failed" else pytrim env.stderr)
  else if pytrim env.stdout = "" then Except.error "gemini returned empty output"
  else Except.ok (pytrim env.stdout ++ "\n")

/-- Is the attempt a failure? -/
def is_err : Except String String → Bool
  | Except.error _ => true
  | Except.ok _ => false

/-- The note-producing `try`/`except` of `main` (script lines 424-431): with a
non-empty prompt text the gemini attempt is made and any failure falls back to
the deterministic `render`; with an empty prompt text `render` is used
directly. -/
def choose_note (prompt_text : String) (env : GeminiEnv) (meta : MetaRec)
    (chapters : List Chapter) (transcript : List Utt) (url vid prompt_arg : String) :
    String :=
  if prompt_text ≠ "" then
    match render_with_gemini env with
    | Except.ok s => s
    | Except.error _ => render meta chapters transcript url vid prompt_arg
  else render meta chapters transcript url vid prompt_arg

section Lemmas

/-- Membership survives `dropWhile` removal. -/
theorem mem_of_mem_dropWhile {α} {p : α → Bool} {a : α} :
    ∀ {l : List α}, a ∈ l.dropWhile p → a ∈ l := by
  intro l
  induction l with
  | nil => intro h; simp at h
  | cons b tl ih =>
    intro h
    by_cases hb : p b
    · rw [List.dropWhile_cons_of_pos hb] at h
      exact List.mem_cons_of_mem b (ih h)
    · rw [List.dropWhile_cons_of_neg (by simpa using hb)] at h
      exact h

/-- The head surviving `dropWhile` does not satisfy the predicate. -/
theorem dropWhile_head_not {α} {p : α → Bool} :
    ∀ {l : List α} {c : α} {tl : List α}, l.dropWhile p = c :: tl → p c = false := by
  intro l
  induction l with
  | nil => intro c tl h; simp at h
  | cons b t ih =>
    intro c tl h
    by_cases hb : p b
    · rw [List.dropWhile_cons_of_pos hb] at h
      exact ih h
    · rw [List.dropWhile_cons_of_neg (by simpa using hb)] at h
      cases h
      simpa using hb

/-- Membership survives Python-style stripping. -/
theorem mem_of_mem_pytrim_list {a : Char} {l : List Char} :
    a ∈ pytrim_list l → a ∈ l := by
  intro h
  unfold pytrim_list at h
  rw [List.mem_reverse] at h
  have h2 := mem_of_mem_dropWhile h
  rw [List.mem_reverse] at h2
  exact mem_of_mem_dropWhile h2

end Lemmas

/-- C2: `render_with_gemini` fails exactly when the `gemini` executable is not
on the path, or it exits with non-zero status, or its stdout is empty after
stripping; and whenever it fails for any reason, the note produced by `main`'s
`try`/`except` equals the deterministic `render` output (the failure never
surfaces and never results in absence of output). -/
theorem gemini_failure_iff_and_falls_back :
    ∀ env : GeminiEnv,
      (is_err (render_with_gemini env) = true ↔
        (env.available = false ∨ env.exitCode ≠ 0 ∨ pytrim env.stdout = "")) ∧
      (∀ (pt : String) (meta : MetaRec) (chs : List Chapter) (tr : List Utt)
         (url vid pa : String),
        is_err (render_with_gemini env) = true →
          choose_note pt env meta chs tr url vid pa = render meta chs tr url vid pa) := by
  intro env
  constructor
  · unfold render_with_gemini
    split_ifs with h1 h2 h3 <;> simp_all [is_err]
  · intro pt meta chs tr url vid pa h
    unfold choose_note
    split
    · cases hg : render_with_gemini env with
      | ok s => rw [hg] at h; simp [is_err] at h
      | error e => rfl
    · rfl

/-- Witness for C2 at a concrete failing environment (tool not on the path). -/
theorem gemini_failure_iff_and_falls_back_witness :
    is_err (render_with_gemini ⟨false, 0, "out", ""⟩) = true ∧
      choose_note "style spec" ⟨false, 0, "out", ""⟩ ⟨"T", "", "", "", []⟩ [⟨0, "c"⟩] []
          "u" "v" "p" =
        render ⟨"T", "", "", "", []⟩ [⟨0, "c"⟩] [] "u" "v" "p" := by
  have h := gemini_failure_iff_and_falls_back ⟨false, 0, "out", ""⟩
  exact ⟨h.1.mpr (Or.inl rfl), h.2 "style spec" _ _ _ "u" "v" "p" (h.1.mpr (Or.inl rfl))⟩

/-- C3: `get_transcript` reaches the ASR fallback exactly on the two
distinguished captions conditions (`NoTranscriptFound` / `TranscriptsDisabled`),
tagging that result `asr-fallback` and a native result `youtube-subtitles`;
any other captions failure propagates unrecovered, the native path never
consults the ASR collaborator, and the `asr-fallback` tag makes `main` append
the trailing provenance line. -/
theorem get_transcript_tiering_and_provenance :
    (∀ (items : List Utt) (asr1 asr2 : Except String (List Utt)),
        get_transcript (CaptionsResult.fetched items) asr1 =
          get_transcript (CaptionsResult.fetched items) asr2) ∧
    (∀ (items : List Utt) (asr : Except String (List Utt)), ∃ l,
        get_transcript (CaptionsResult.fetched items) asr =
          Except.ok (l, "youtube-subtitles")) ∧
    (∀ entries : List Utt,
        get_transcript CaptionsResult.noTranscriptFound (Except.ok entries) =
          Except.ok (entries.filter (fun e => decide (e.text ≠ "")), "asr-fallback")) ∧
    (∀ entries : List Utt,
        get_transcript CaptionsResult.transcriptsDisabled (Except.ok entries) =
          Except.ok (entries.filter (fun e => decide (e.text ≠ "")), "asr-fallback")) ∧
    (∀ m : String,
        get_transcript CaptionsResult.noTranscriptFound (Except.error m) = Except.error m) ∧
    (∀ m : String,
        get_transcript CaptionsResult.transcriptsDisabled (Except.error m) = Except.error m) ∧
    (∀ (m : String) (asr : Except String (List Utt)),
        get_transcript (CaptionsResult.otherFailure m) asr = Except.error m) ∧
    (∀ note : String, apply_provenance note "asr-fallback" =
        pyrstrip note ++ "\n\nsource: asr-fallback\n") ∧
    (∀ note : String, apply_provenance note "youtube-subtitles" = note) := by
  refine ⟨fun items a1 a2 => rfl, fun items asr => ⟨_, rfl⟩, fun entries => rfl,
    fun entries => rfl, fun m => rfl, fun m => rfl, fun m asr => rfl,
    fun note => by simp [apply_provenance], fun note => by simp [apply_provenance]⟩

/-- C4: `build_chapters` never returns an empty list, and with no metadata
chapter markers and no description line parsing as a chapter it returns exactly
the synthetic `[{start: 0.0, title: "Transcript"}]`. -/
theorem build_chapters_nonempty_and_default :
    (∀ meta : MetaRec, build_chapters meta ≠ []) ∧
    (∀ meta : MetaRec, meta.chapters = [] →
      (∀ line ∈ splitlines meta.description, line_to_chapter line = none) →
      build_chapters meta = [⟨0, "Transcript"⟩]) := by
  constructor
  · intro meta
    simp only [build_chapters]
    by_cases h1 : meta.chapters ≠ []
    · rw [if_pos h1]; simpa using h1
    · rw [if_neg h1]
      by_cases hp : (splitlines meta.description).filterMap line_to_chapter ≠ []
      · rw [if_pos hp]; exact hp
      · rw [if_neg hp]; simp
  · intro meta h1 h2
    unfold build_chapters
    rw [if_neg (by simp [h1])]
    simp [List.filterMap_eq_nil_iff.mpr h2]

/-- Witness for C4 at a concrete metadata record with no markers and a
non-parsing description. -/
theorem build_chapters_nonempty_and_default_witness :
    build_chapters ⟨"", "", "", "plain description", []⟩ = [⟨0, "Transcript"⟩] ∧
      build_chapters ⟨"", "", "", "plain description", []⟩ ≠ [] :=
  ⟨build_chapters_nonempty_and_default.2 ⟨"", "", "", "plain description", []⟩ rfl (by decide),
   build_chapters_nonempty_and_default.1 ⟨"", "", "", "plain description", []⟩⟩

/-- C8: description-derived chapters: `"1:30 Intro"` yields exactly
`[{start: 90.0, title: "Intro"}]`; chapters keep line order (not time order);
lines that do not parse are rejected; lines whose stripped title is empty are
skipped. -/
theorem build_chapters_description_scenarios :
    build_chapters ⟨"", "", "", "1:30 Intro", []⟩ = [⟨90, "Intro"⟩] ∧
    build_chapters ⟨"", "", "", "2:00 Later\n0:30 Early", []⟩ =
      [⟨120, "Later"⟩, ⟨30, "Early"⟩] ∧
    build_chapters ⟨"", "", "", "not a timestamp\n1:30 Intro", []⟩ = [⟨90, "Intro"⟩] ∧
    build_chapters ⟨"", "", "", "1:30   \n2:05 Kept", []⟩ = [⟨125, "Kept"⟩] := by
  decide

/-- C9: `is_non_speech` tests the fixed marker set by substring containment on
the lower-cased text, so the ordinary dialogue `"I love music"` — which is not
bracket-enclosed and merely contains the marker word `"music"` — is classified
as a non-speech event and rendered as a bracketed event line on its own,
instead of being merged into a dialogue paragraph. -/
theorem is_non_speech_substring_false_positive :
    is_non_speech "I love music" = true ∧
    bracket_fullmatch (pytrim "I love music").data = false ∧
    contains_sub (py_lower "I love music").data "music".data = true ∧
    clean_caption_text (replace_nl "I love music") = "I love music" ∧
    process_rows [⟨5, "I love music"⟩] [] 0 0 = [Item.event "[I love music]" 5] ∧
    render_chapter "Speaker 1" ⟨0, "Chat"⟩ [⟨5, "I love music"⟩] =
      ["[00:00:00] Chat", "", "[I love music] [00:00:05]", "", ""] := by
  decide

/-- C10: `clean_caption_text` removes every literal `'['` and `']'`, and
classification runs on the cleaned text; hence a bracketed annotation whose
body matches no fixed marker, such as `"[Cheering]"`, is stripped of its
brackets and accumulated into the dialogue paragraph buffer as ordinary
speech rather than emitted as a standalone event line. -/
theorem clean_strips_brackets_then_classifies :
    (∀ s : String,
       '[' ∉ (clean_caption_text s).data ∧ ']' ∉ (clean_caption_text s).data) ∧
    clean_caption_text (replace_nl "[Cheering]") = "Cheering" ∧
    is_non_speech "Cheering" = false ∧
    process_rows [⟨7, "[Cheering]"⟩] [] 0 3 = [Item.paragraph ["Cheering"] 7] := by
  refine ⟨?_, by decide, by decide, by decide⟩
  intro s
  unfold clean_caption_text
  constructor <;>
  · intro hmem
    have h2 := mem_of_mem_pytrim_list hmem
    have h3 := (List.mem_filter.mp h2).2
    simp at h3

/-- `f"{n:02d}"` of a two-digit-bounded number is exactly its two decimal
digit characters. -/
theorem pad2_eq_digits (n : Nat) (h : n < 100) :
    pad2 n = ⟨[Nat.digitChar (n / 10), Nat.digitChar (n % 10)]⟩ := by
  have H : ∀ k : Fin 100,
      pad2 k.1 = ⟨[Nat.digitChar (k.1 / 10), Nat.digitChar (k.1 % 10)]⟩ := by decide
  exact H ⟨n, h⟩

/-- Digit characters are digits. -/
theorem digitChar_isDigit (d : Nat) (h : d < 10) : (Nat.digitChar d).isDigit = true := by
  have H : ∀ k : Fin 10, (Nat.digitChar k.1).isDigit = true := by decide
  exact H ⟨d, h⟩

/-- Code of a digit character. -/
theorem digitChar_toNat (d : Nat) (h : d < 10) : (Nat.digitChar d).toNat = 48 + d := by
  have H : ∀ k : Fin 10, (Nat.digitChar k.1).toNat = 48 + k.1 := by decide
  exact H ⟨d, h⟩

/-- Character data of the assembled `[..:..:..]` label. -/
theorem hms_assemble_data (a b c d e f : Char) :
    ("[" ++ (⟨[a, b]⟩ : String) ++ ":" ++ (⟨[c, d]⟩ : String) ++ ":" ++
        (⟨[e, f]⟩ : String) ++ "]").data =
      ['[', a, b, ':', c, d, ':', e, f, ']'] := by
  simp [String.data_append]

/-- C5 (amended): for offsets `0 <= t` below 100 hours (360000 s) the `hms`
label matches `^\[\d{2}:\d{2}:\d{2}\]$` and decodes back to `t` truncated to
whole seconds, and negative inputs are clamped to zero; at 100 hours and
beyond the hour field grows to three digits (see the counterexample), so the
two-digit shape clause of the claim holds only below that bound. -/
theorem hms_shape_decode_clamp (t : ℚ) :
    (0 ≤ t → t < 360000 →
      matches_hms_shape (hms t) = true ∧ decode_hms (hms t) = (⌊t⌋).toNat) ∧
    (t < 0 → hms t = hms 0) := by
  constructor
  · intro h0 hlt
    have hmax : max 0 t = t := max_eq_right h0
    have hfl0 : (0 : ℤ) ≤ ⌊t⌋ := Int.floor_nonneg.mpr h0
    have hflt : ⌊t⌋ < 360000 := Int.floor_lt.mpr (by exact_mod_cast hlt)
    have hrw : hms t = "[" ++ pad2 ((⌊t⌋).toNat / 3600) ++ ":" ++
        pad2 ((⌊t⌋).toNat % 3600 / 60) ++ ":" ++ pad2 ((⌊t⌋).toNat % 60) ++ "]" := by
      simp only [hms, hmax]
    have hh : (⌊t⌋).toNat / 3600 < 100 := by omega
    have hm : (⌊t⌋).toNat % 3600 / 60 < 100 := by omega
    have hs : (⌊t⌋).toNat % 60 < 100 := by omega
    rw [hrw, pad2_eq_digits _ hh, pad2_eq_digits _ hm, pad2_eq_digits _ hs]
    constructor
    · simp only [matches_hms_shape, hms_assemble_data]
      simp [digitChar_isDigit _ (by omega : (⌊t⌋).toNat / 3600 / 10 < 10),
        digitChar_isDigit _ (by omega : (⌊t⌋).toNat / 3600 % 10 < 10),
        digitChar_isDigit _ (by omega : (⌊t⌋).toNat % 3600 / 60 / 10 < 10),
        digitChar_isDigit _ (by omega : (⌊t⌋).toNat % 3600 / 60 % 10 < 10),
        digitChar_isDigit _ (by omega : (⌊t⌋).toNat % 60 / 10 < 10),
        digitChar_isDigit _ (by omega : (⌊t⌋).toNat % 60 % 10 < 10)]
    · simp only [decode_hms, hms_assemble_data]
      rw [digitChar_toNat _ (by omega : (⌊t⌋).toNat / 3600 / 10 < 10),
        digitChar_toNat _ (by omega : (⌊t⌋).toNat / 3600 % 10 < 10),
        digitChar_toNat _ (by omega : (⌊t⌋).toNat % 3600 / 60 / 10 < 10),
        digitChar_toNat _ (by omega : (⌊t⌋).toNat % 3600 / 60 % 10 < 10),
        digitChar_toNat _ (by omega : (⌊t⌋).toNat % 60 / 10 < 10),
        digitChar_toNat _ (by omega : (⌊t⌋).toNat % 60 % 10 < 10)]
      omega
  · intro hneg
    have h1 : max 0 t = 0 := max_eq_left (le_of_lt hneg)
    have h2 : max (0 : ℚ) 0 = 0 := max_self 0
    simp only [hms, h1, h2]

/-- Counterexample to C5 as stated: at 100 hours the hour field has three
digits, so `hms` output does not match `^\[\d{2}:\d{2}:\d{2}\]$`. -/
theorem hms_shape_cex :
    matches_hms_shape (hms 360000) = false ∧ hms 360000 = "[100:00:00]" := by
  decide

/-- Witness for the amended C5 at concrete inputs 5025 s and -7 s. -/
theorem hms_shape_decode_clamp_witness :
    ((0 : ℚ) ≤ 5025 ∧ (5025 : ℚ) < 360000 ∧
      matches_hms_shape (hms 5025) = true ∧
      decode_hms (hms 5025) = (⌊(5025 : ℚ)⌋).toNat) ∧
    ((-7 : ℚ) < 0 ∧ hms (-7) = hms 0) :=
  ⟨⟨by decide, by decide,
    ((hms_shape_decode_clamp 5025).1 (by decide) (by decide)).1,
    ((hms_shape_decode_clamp 5025).1 (by decide) (by decide)).2⟩,
   ⟨by decide, (hms_shape_decode_clamp (-7)).2 (by decide)⟩⟩

/-- `paragraph_texts` distributes over entry-list concatenation. -/
theorem paragraph_texts_append (a b : List Item) :
    paragraph_texts (a ++ b) = paragraph_texts a ++ paragraph_texts b := by
  induction a with
  | nil => rfl
  | cons x t ih => cases x <;> simp [paragraph_texts, ih]

/-- Invariant of `render`'s chapter loop: the concatenated flushed paragraph
texts equal the pending buffer followed by the cleaned speech texts of the
remaining rows, whatever the sentence counter and timestamp state. -/
theorem process_rows_paragraphs (rows : List Utt) :
    ∀ (buf : List String) (bs : Nat) (ts : ℚ),
      (paragraph_texts (process_rows rows buf bs ts)).flatten =
        buf ++ cleaned_speech_texts rows := by
  induction rows with
  | nil =>
    intro buf bs ts
    by_cases hb : buf = [] <;>
      simp [process_rows, flush_items, hb, cleaned_speech_texts, paragraph_texts]
  | cons r rest ih =>
    intro buf bs ts
    simp only [process_rows, cleaned_speech_texts, List.filterMap_cons]
    by_cases ht : clean_caption_text (replace_nl r.text) = ""
    · rw [if_pos ht, ih]
      simp [cleaned_speech_texts, ht]
    · rw [if_neg ht]
      by_cases hn : is_non_speech (clean_caption_text (replace_nl r.text)) = true
      · rw [if_pos hn]
        rw [paragraph_texts_append]
        simp only [paragraph_texts, List.flatten_append, ih]
        by_cases hb : buf = [] <;>
          simp [flush_items, hb, paragraph_texts, cleaned_speech_texts, ht, hn]
      · rw [if_neg hn]
        by_cases h3 : bs + sentence_count (clean_caption_text (replace_nl r.text)) ≥ 3
        · rw [if_pos h3]
          rw [paragraph_texts_append]
          simp only [List.flatten_append, ih]
          simp [flush_items, paragraph_texts, cleaned_speech_texts, ht, hn]
        · rw [if_neg h3, ih]
          simp [cleaned_speech_texts, ht, hn]

/-- C6: for every chapter bucket (and indeed every utterance list) and chapter
start, the concatenation of all paragraph texts flushed by `render`'s chapter
loop — the emitted paragraph lines with speaker prefix and trailing timestamp
ignored — equals the concatenation of all cleaned, non-event utterance texts of
that bucket, in original order: flushing on threshold, event and chapter end
neither drops, duplicates, nor reorders dialogue. -/
theorem render_paragraphs_preserve_dialogue :
    (∀ (rows : List Utt) (cstart : ℚ),
      (paragraph_texts (process_rows rows [] 0 cstart)).flatten =
        cleaned_speech_texts rows) ∧
    (∀ (chapters : List Chapter) (transcript : List Utt) (i : Nat) (cstart : ℚ),
      (paragraph_texts (process_rows (bucket chapters transcript i) [] 0 cstart)).flatten =
        cleaned_speech_texts (bucket chapters transcript i)) := by
  constructor
  · intro rows cstart
    simpa using process_rows_paragraphs rows [] 0 cstart
  · intro chapters transcript i cstart
    simpa using process_rows_paragraphs (bucket chapters transcript i) [] 0 cstart

/-- Python's whitespace predicate covers Lean's. -/
theorem pyIsSpace_of_isWhitespace {c : Char} (h : c.isWhitespace = true) :
    pyIsSpace c = true := by
  simp [pyIsSpace, h]

/-- Any `rstrip`-ped string followed by one newline ends in exactly one
newline. -/
theorem one_trailing_newline_rstrip (s : String) :
    one_trailing_newline (pyrstrip s ++ "\n") = true := by
  have hd : (pyrstrip s ++ "\n").data =
      (s.data.reverse.dropWhile pyIsSpace).reverse ++ ['\n'] := by
    simp [pyrstrip, String.data_append]
  unfold one_trailing_newline
  rw [hd, List.reverse_append]
  simp only [List.reverse_cons, List.reverse_nil, List.nil_append, List.reverse_reverse,
    List.cons_append, List.singleton_append]
  cases hl : s.data.reverse.dropWhile pyIsSpace with
  | nil => simp
  | cons d tl =>
    have hpd : pyIsSpace d = false := dropWhile_head_not hl
    have hwd : d.isWhitespace = false := by
      cases hw : d.isWhitespace
      · rfl
      · rw [pyIsSpace_of_isWhitespace hw] at hpd; cases hpd
    simp [hwd]

/-- `flatMap` over an enumerated list whose function ignores the index. -/
theorem enumFrom_flatMap_snd {α β} (g : α → List β) :
    ∀ (l : List α) (n : Nat),
      (List.enumFrom n l).flatMap (fun ic => g ic.2) = l.flatMap g := by
  intro l
  induction l with
  | nil => intro n; rfl
  | cons a t ih => intro n; simp [List.enumFrom, List.flatMap_cons, ih]

/-- Pointwise-equal functions give equal `flatMap`s. -/
theorem flatMap_congr_mem {α β} {l : List α} {f g : α → List β}
    (h : ∀ a ∈ l, f a = g a) : l.flatMap f = l.flatMap g := by
  induction l with
  | nil => rfl
  | cons a t ih =>
    simp only [List.flatMap_cons]
    rw [h a (List.mem_cons_self a t), ih (fun x hx => h x (List.mem_cons_of_mem a hx))]

/-- C7: the deterministic renderer's output always ends in exactly one trailing
newline with no trailing blank line before it; and when every chapter bucket is
empty, each chapter section consists solely of the literal
`[No transcript in this chapter]` marker at the chapter's own timestamp. -/
theorem render_trailing_newline_and_empty_sections :
    (∀ (meta : MetaRec) (chapters : List Chapter) (transcript : List Utt)
       (u v p : String),
      one_trailing_newline (render meta chapters transcript u v p) = true) ∧
    (∀ (meta : MetaRec) (chapters : List Chapter) (transcript : List Utt),
      (∀ i, bucket chapters transcript i = []) →
      render_lines meta chapters transcript =
        ([pytrim (if meta.title = "" then "YouTube Transcript" else meta.title), "",
          "Table of Contents", ""] ++
         chapters.map (fun c => "* " ++ hms c.start ++ " " ++ c.title) ++ [""]) ++
        chapters.flatMap (fun c =>
          [hms c.start ++ " " ++ c.title, "",
           "[No transcript in this chapter] " ++ hms c.start ++ "\n", ""])) := by
  constructor
  · intro meta chapters transcript u v p
    exact one_trailing_newline_rstrip _
  · intro meta chapters transcript h
    simp only [render_lines]
    congr 1
    rw [flatMap_congr_mem (fun ic _ => by rw [h ic.1])]
    rw [show chapters.enum = List.enumFrom 0 chapters from rfl]
    rw [enumFrom_flatMap_snd
      (fun c => render_chapter
        (if (if meta.uploader = "" then meta.channel else meta.uploader) = ""
         then "Speaker 1"
         else if meta.uploader = "" then meta.channel else meta.uploader) c [])
      chapters 0]
    exact flatMap_congr_mem (fun c _ => by simp [render_chapter])

/-- Witness for C7 at a concrete metadata record, chapter list and the empty
transcript (every bucket empty). -/
theorem render_trailing_newline_and_empty_sections_witness :
    render_lines ⟨"", "", "", "", []⟩ [⟨0, "Alpha"⟩] [] =
      ["YouTube Transcript", "", "Table of Contents", "", "* [00:00:00] Alpha", "",
       "[00:00:00] Alpha", "", "[No transcript in this chapter] [00:00:00]\n", ""] ∧
    one_trailing_newline (render ⟨"", "", "", "", []⟩ [⟨0, "Alpha"⟩] [] "" "" "") = true :=
  ⟨(render_trailing_newline_and_empty_sections.2 ⟨"", "", "", "", []⟩ [⟨0, "Alpha"⟩] []
      (fun i => rfl)).trans (by decide),
   render_trailing_newline_and_empty_sections.1 ⟨"", "", "", "", []⟩ [⟨0, "Alpha"⟩] [] "" "" ""⟩

/-- Closed form of the `chapter_for` scan: the accumulator result is determined
by the length of the longest prefix of chapters whose starts are all `<= t`. -/
theorem chapter_for_aux_closed (t : ℚ) :
    ∀ (l : List Chapter) (i idx : Nat),
      chapter_for_aux t l i idx =
        if (l.takeWhile (fun c => decide (c.start ≤ t))).length = 0 then idx
        else i + (l.takeWhile (fun c => decide (c.start ≤ t))).length - 1 := by
  intro l
  induction l with
  | nil => intro i idx; simp [chapter_for_aux]
  | cons c rest ih =>
    intro i idx
    by_cases hc : c.start ≤ t
    · have hstep : chapter_for_aux t (c :: rest) i idx = chapter_for_aux t rest (i + 1) i := by
        simp [chapter_for_aux, hc]
      rw [hstep, ih, List.takeWhile_cons, if_pos (decide_eq_true hc)]
      simp only [List.length_cons]
      by_cases h0 : (rest.takeWhile (fun c => decide (c.start ≤ t))).length = 0
      · rw [if_pos h0, if_neg (by omega)]
        omega
      · rw [if_neg h0, if_neg (by omega)]
        omega
    · have hstep : chapter_for_aux t (c :: rest) i idx = idx := by
        simp [chapter_for_aux, hc]
      rw [hstep, List.takeWhile_cons]
      simp [hc]

/-- `chapter_for` returns (prefix length of chapters with start `<= t`) - 1 in
truncated natural subtraction (hence 0 when no leading chapter qualifies). -/
theorem chapter_for_closed (t : ℚ) (l : List Chapter) :
    chapter_for t l = (l.takeWhile (fun c => decide (c.start ≤ t))).length - 1 := by
  rw [chapter_for, chapter_for_aux_closed]
  by_cases h0 : (l.takeWhile (fun c => decide (c.start ≤ t))).length = 0
  · simp [h0]
  · simp [h0]

/-- Inside the `takeWhile` region, indexing the original list agrees with
indexing the prefix. -/
theorem takeWhile_getD_agree {α} (p : α → Bool) (d : α) :
    ∀ (l : List α) (j : Nat), j < (l.takeWhile p).length →
      l.getD j d = (l.takeWhile p).getD j d := by
  intro l
  induction l with
  | nil => intro j h; simp at h
  | cons a tl ih =>
    intro j h
    by_cases ha : p a = true
    · rw [List.takeWhile_cons, if_pos ha] at h ⊢
      cases j with
      | zero => rfl
      | succ m =>
        rw [List.getD_cons_succ, List.getD_cons_succ]
        exact ih m (by simpa using h)
    · rw [List.takeWhile_cons, if_neg ha] at h
      simp at h

/-- Membership survives taking the `takeWhile` prefix. -/
theorem mem_of_mem_takeWhile {α} {p : α → Bool} {a : α} {l : List α}
    (h : a ∈ l.takeWhile p) : a ∈ l := by
  rw [← List.takeWhile_append_dropWhile p l]
  exact List.mem_append_left _ h

/-- C1 (amended): for chapter lists sorted by non-decreasing start — the order
`build_chapters` yields from metadata markers and the invariant the spec
assumes — `chapter_for` picks a valid bucket index; whenever some chapter start
is `<= t` the chosen chapter's start is `<= t` and is the greatest such start;
when no chapter start is `<= t` bucket 0 is chosen; and membership in
`render`'s buckets is uniquely determined by `chapter_for`, so every utterance
lands in exactly one bucket.  (For unsorted chapter lists the greatest-start
clause of the claim fails, see the counterexample.) -/
theorem chapter_for_greatest_of_sorted (chapters : List Chapter) (t : ℚ)
    (hsorted : chapters.Pairwise (fun a b => a.start ≤ b.start)) :
    (chapters ≠ [] → chapter_for t chapters < chapters.length) ∧
    (∀ c ∈ chapters, c.start ≤ t →
       (chapters.getD (chapter_for t chapters) ⟨0, ""⟩).start ≤ t ∧
       c.start ≤ (chapters.getD (chapter_for t chapters) ⟨0, ""⟩).start) ∧
    ((∀ c ∈ chapters, ¬ c.start ≤ t) → chapter_for t chapters = 0) ∧
    (∀ (transcript : List Utt) (u : Utt) (i : Nat),
       u ∈ bucket chapters transcript i ↔
         u ∈ transcript ∧ chapter_for u.start chapters = i) := by
  have hcf := chapter_for_closed t chapters
  have hk_le : (chapters.takeWhile (fun c => decide (c.start ≤ t))).length ≤
      chapters.length := by
    conv_rhs => rw [← List.takeWhile_append_dropWhile (fun c => decide (c.start ≤ t)) chapters]
    rw [List.length_append]
    omega
  refine ⟨?_, ?_, ?_, ?_⟩
  · intro hne
    have hlen : 0 < chapters.length := List.length_pos.mpr hne
    omega
  · intro c hc hct
    have hp : (fun c : Chapter => decide (c.start ≤ t)) c = true := decide_eq_true hct
    have hk1 : 1 ≤ (chapters.takeWhile (fun c => decide (c.start ≤ t))).length := by
      by_contra hk0
      have hk0' : (chapters.takeWhile (fun c => decide (c.start ≤ t))).length = 0 := by omega
      cases hch : chapters with
      | nil => rw [hch] at hc; simp at hc
      | cons c0 rest =>
        rw [hch] at hk0'
        have hpc0 : (fun c : Chapter => decide (c.start ≤ t)) c0 = false := by
          cases hpp : (fun c : Chapter => decide (c.start ≤ t)) c0
          · rfl
          · rw [List.takeWhile_cons, if_pos hpp] at hk0'; simp at hk0'
        rw [hch] at hc hsorted
        rcases List.mem_cons.mp hc with rfl | hcr
        · rw [hp] at hpc0; cases hpc0
        · have h01 : c0.start ≤ c.start := (List.pairwise_cons.mp hsorted).1 c hcr
          have h02 : (fun c : Chapter => decide (c.start ≤ t)) c0 = true :=
            decide_eq_true (le_trans h01 hct)
          rw [h02] at hpc0; cases hpc0
    have htw_ne : chapters.takeWhile (fun c : Chapter => decide (c.start ≤ t)) ≠ [] := by
      intro h0
      rw [h0] at hk1
      simp at hk1
    have hidx_lt : (chapters.takeWhile (fun c : Chapter => decide (c.start ≤ t))).length - 1 <
        (chapters.takeWhile (fun c : Chapter => decide (c.start ≤ t))).length := by omega
    have hgd : chapters.getD (chapter_for t chapters) ⟨0, ""⟩ =
        (chapters.takeWhile (fun c : Chapter => decide (c.start ≤ t))).getD
          ((chapters.takeWhile (fun c : Chapter => decide (c.start ≤ t))).length - 1) ⟨0, ""⟩ := by
      rw [hcf]
      exact takeWhile_getD_agree _ _ chapters _ hidx_lt
    have hlast_mem :
        (chapters.takeWhile (fun c : Chapter => decide (c.start ≤ t))).getD
          ((chapters.takeWhile (fun c : Chapter => decide (c.start ≤ t))).length - 1) ⟨0, ""⟩ ∈
          chapters.takeWhile (fun c : Chapter => decide (c.start ≤ t)) := by
      rw [List.getD_eq_getElem _ _ hidx_lt]
      exact List.getElem_mem hidx_lt
    have hlast_p := List.mem_takeWhile_imp hlast_mem
    constructor
    · rw [hgd]
      exact of_decide_eq_true hlast_p
    · rw [hgd]
      have hsplit := List.takeWhile_append_dropWhile
        (fun c : Chapter => decide (c.start ≤ t)) chapters
      have hc2 : c ∈ chapters.takeWhile (fun c : Chapter => decide (c.start ≤ t)) ++
          chapters.dropWhile (fun c : Chapter => decide (c.start ≤ t)) := by
        rw [hsplit]; exact hc
      have hsorted2 : List.Pairwise (fun a b : Chapter => a.start ≤ b.start)
          (chapters.takeWhile (fun c : Chapter => decide (c.start ≤ t)) ++
           chapters.dropWhile (fun c : Chapter => decide (c.start ≤ t))) := by
        rw [hsplit]; exact hsorted
      have hc_tw : c ∈ chapters.takeWhile (fun c : Chapter => decide (c.start ≤ t)) := by
        rcases List.mem_append.mp hc2 with h | hdw
        · exact h
        · exfalso
          cases hdw_eq : chapters.dropWhile (fun c : Chapter => decide (c.start ≤ t)) with
          | nil => rw [hdw_eq] at hdw; simp at hdw
          | cons e suf =>
            have hpe := dropWhile_head_not hdw_eq
            simp only [decide_eq_false_iff_not] at hpe
            rw [hdw_eq] at hdw
            rcases List.mem_cons.mp hdw with rfl | hsuf
            · exact hpe hct
            · have hdw_pw := (List.pairwise_append.mp hsorted2).2.1
              rw [hdw_eq] at hdw_pw
              have hec : e.start ≤ c.start := (List.pairwise_cons.mp hdw_pw).1 c hsuf
              exact hpe (le_trans hec hct)
      have htw_pw := (List.pairwise_append.mp hsorted2).1
      have hdecomp := List.dropLast_append_getLast htw_ne
      have hlast_eq :
          (chapters.takeWhile (fun c : Chapter => decide (c.start ≤ t))).getD
            ((chapters.takeWhile (fun c : Chapter => decide (c.start ≤ t))).length - 1) ⟨0, ""⟩ =
          (chapters.takeWhile (fun c : Chapter => decide (c.start ≤ t))).getLast htw_ne := by
        rw [List.getD_eq_getElem _ _ hidx_lt, List.getLast_eq_getElem]
      rw [hlast_eq]
      rw [← hdecomp] at hc_tw htw_pw
      rcases List.mem_append.mp hc_tw with hdl | hl
      · exact (List.pairwise_append.mp htw_pw).2.2 c hdl _ (List.mem_singleton.mpr rfl)
      · rw [List.mem_singleton.mp hl]
  · intro hnone
    cases hch : chapters with
    | nil => rfl
    | cons c0 rest =>
      have h0 : ¬ c0.start ≤ t := hnone c0 (by rw [hch]; exact List.mem_cons_self c0 rest)
      show chapter_for_aux t (c0 :: rest) 0 0 = 0
      simp [chapter_for_aux, h0]
  · intro transcript u i
    simp [bucket, List.mem_filter]

/-- Counterexample to C1 as stated: on an unsorted chapter list the forward
scan stops at the first start exceeding `t`, so for `t = 5` and chapters with
starts `[10, 0]` it picks bucket 0 (start 10, not `<= 5`) although the chapter
at index 1 has start `0 <= 5` — the chosen bucket is not the chapter with the
greatest start `<= t` among all chapters. -/
theorem chapter_for_unsorted_cex :
    chapter_for 5 [⟨10, "A"⟩, ⟨0, "B"⟩] = 0 ∧
    ¬ (([⟨10, "A"⟩, ⟨0, "B"⟩] : List Chapter).getD
        (chapter_for 5 [⟨10, "A"⟩, ⟨0, "B"⟩]) ⟨0, ""⟩).start ≤ 5 ∧
    (⟨0, "B"⟩ : Chapter) ∈ ([⟨10, "A"⟩, ⟨0, "B"⟩] : List Chapter) ∧
    ((0 : ℚ) ≤ 5) := by
  decide

/-- Witness for the amended C1 at a concrete sorted chapter list (with a tied
start) and `t = 15`. -/
theorem chapter_for_greatest_of_sorted_witness :
    (([⟨0, "a"⟩, ⟨10, "b"⟩, ⟨10, "c"⟩, ⟨20, "d"⟩] : List Chapter).getD
        (chapter_for 15 [⟨0, "a"⟩, ⟨10, "b"⟩, ⟨10, "c"⟩, ⟨20, "d"⟩]) ⟨0, ""⟩).start ≤ 15 ∧
    (10 : ℚ) ≤ (([⟨0, "a"⟩, ⟨10, "b"⟩, ⟨10, "c"⟩, ⟨20, "d"⟩] : List Chapter).getD
        (chapter_for 15 [⟨0, "a"⟩, ⟨10, "b"⟩, ⟨10, "c"⟩, ⟨20, "d"⟩]) ⟨0, ""⟩).start ∧
    chapter_for 15 [⟨0, "a"⟩, ⟨10, "b"⟩, ⟨10, "c"⟩, ⟨20, "d"⟩] <
      ([⟨0, "a"⟩, ⟨10, "b"⟩, ⟨10, "c"⟩, ⟨20, "d"⟩] : List Chapter).length :=
  ⟨((chapter_for_greatest_of_sorted [⟨0, "a"⟩, ⟨10, "b"⟩, ⟨10, "c"⟩, ⟨20, "d"⟩] 15
      (by decide)).2.1 ⟨10, "b"⟩ (by decide) (by decide)).1,
   ((chapter_for_greatest_of_sorted [⟨0, "a"⟩, ⟨10, "b"⟩, ⟨10, "c"⟩, ⟨20, "d"⟩] 15
      (by decide)).2.1 ⟨10, "b"⟩ (by decide) (by decide)).2,
   (chapter_for_greatest_of_sorted [⟨0, "a"⟩, ⟨10, "b"⟩, ⟨10, "c"⟩, ⟨20, "d"⟩] 15
      (by decide)).1 (by decide)⟩

example : sentence_count "One. Two. Three." = 3 := by decide
example : parse_ts_line "1:30 Intro" = some (90, "Intro") := by decide
example : parse_ts_line "01:02:03 - Deep dive" = some (3723, "Deep dive") := by decide
example : parse_ts_line "1:30" = none := by decide
example : parse_ts_line "1:30   " = some (90, "") := by decide
example : parse_ts_line "hello" = none := by decide
example : parse_ts_line "1:23:45" = some (83, ":45") := by decide
example : parse_ts_line " 12:05 – Title " = some (725, "Title") := by decide
example : line_to_chapter "1:30   " = none := by decide
example : splitlines "a\nb\n" = ["a", "b"] := by decide
example : splitlines "" = [] := by decide
example : build_chapters ⟨"", "", "", "1:30 Intro", []⟩ = [⟨90, "Intro"⟩] := by decide
example : build_chapters ⟨"", "", "", "no chapters here", []⟩ = [⟨0, "Transcript"⟩] := by decide
example : sentence_count "Hello" = 1 := by decide
example : is_non_speech "[Music]" = true := by decide
example : is_non_speech "Hello there." = false := by decide
example : is_non_speech "I love music" = true := by decide
example : is_non_speech "Cheering" = false := by decide
example : clean_caption_text "[Cheering]" = "Cheering" := by decide
example : clean_caption_text ">> Hello   world" = "Hello world" := by decide
example : hms 5 = "[00:00:05]" := by decide
example : hms 3661 = "[01:01:01]" := by decide
example : hms (-7) = "[00:00:00]" := by decide
example : hms 360000 = "[100:00:00]" := by decide
example : matches_hms_shape (hms 360000) = false := by decide
example : decode_hms (hms 359999) = 359999 := by decide
example : chapter_for 5 [⟨0, "a"⟩, ⟨3, "b"⟩, ⟨7, "c"⟩] = 1 := by decide
example : chapter_for 5 [⟨10, "A"⟩, ⟨0, "B"⟩] = 0 := by decide

end YT
